import Mathlib

/-!
Shallow embedding of the resilient head-subscription pipeline of the
`rpc` package (files `blk_observer.go`, `sfc_base.go`, and the block
lookup file), together with proofs about its claimed properties.

The embedding follows the Go source:
  * the head proxy channel is a bounded FIFO buffer (Go buffered channel);
  * the observer loop `observeBlocks` is a labelled transition system over
    its phases (initial subscribe, timer wait with no subscription,
    subscribed and waiting on the error channel, terminated);
  * `terminate` / the close signal is a capacity-one buffered channel plus
    a wait-group counter;
  * `DefaultCallOpts` uses a singleflight group, modelled as a state
    machine over call-arrival and flight-completion events;
  * `SfcContract` / `SfcAbi` are lazily initialised shared handles that
    abort on construction failure;
  * `Block` / `BlockByHash` and the DeFi token listing are fallible
    decoders returning `Except`.
-/

namespace Galaxy

/-! ## Head proxy channel (blk_observer.go: `rpcHeadProxyChannelCapacity`, `New`) -/

/-- Capacity of the received-blocks proxy channel, from the Go constant
`rpcHeadProxyChannelCapacity = 10000`. -/
def rpcHeadProxyChannelCapacity : Nat := 10000

/-- A Go buffered channel: a fixed capacity and the current FIFO buffer. -/
structure BChan (α : Type) where
  cap : Nat
  buf : List α
deriving DecidableEq

/-- Sending on a buffered channel: enqueue when there is room, otherwise the
sender blocks (`none`); nothing is ever dropped. -/
def chanSend {α : Type} (c : BChan α) (x : α) : Option (BChan α) :=
  if c.buf.length < c.cap then some ⟨c.cap, c.buf ++ [x]⟩ else none

/-- The `headers` channel as allocated in `New`:
`make(chan *etc.Header, rpcHeadProxyChannelCapacity)`. Head payloads are
kept opaque and identified by a natural number. -/
def newHeaders : BChan Nat := ⟨rpcHeadProxyChannelCapacity, []⟩

/-! ## Block lookups (`Block`, `BlockByHash`) -/

/-- The decoded shape of a block as far as these lookups inspect it. -/
structure GBlock where
  number : Nat
  timeStamp : Nat
deriving DecidableEq

/-- Errors a block lookup can return: a transport/RPC failure propagated
verbatim, or the distinct `fmt.Errorf("block not found")` value. -/
inductive BlkErr where
  | rpcFail (msg : String)
  | notFound
deriving DecidableEq

/-- `Block` (lookup by encoded number or tag): propagate the RPC error,
otherwise return the decoded block unconditionally. The zero-number check
is commented out in the source. The outcome of the underlying
`eth_getBlockByNumber` call is the `call` parameter. -/
def Block (call : Except String GBlock) : Except BlkErr GBlock :=
  match call with
  | .error e => .error (.rpcFail e)
  | .ok b => .ok b

/-- `BlockByHash`: propagate the RPC error; on success return
`block not found` when the decoded block number is zero, otherwise the
block. The outcome of the underlying `eth_getBlockByHash` call is the
`call` parameter. -/
def BlockByHash (call : Except String GBlock) : Except BlkErr GBlock :=
  match call with
  | .error e => .error (.rpcFail e)
  | .ok b => if b.number = 0 then .error .notFound else .ok b

/-! ## Lazily initialised shared handles (`SfcContract`, `SfcAbi`) -/

/-- Opaque SFC contract binding. -/
structure SfcHandle where
  addr : Nat
deriving DecidableEq

/-- Opaque parsed SFC ABI. -/
structure SfcAbiVal where
  tag : Nat
deriving DecidableEq

/-- The lazily initialised fields of `ChainBridge`, with counters for how
often each constructor has been invoked. -/
structure LazyHandles where
  sfcContract : Option SfcHandle
  sfcAbi : Option SfcAbiVal
  ctorCalls : Nat
  parseCalls : Nat
deriving DecidableEq

/-- Outcome of a lazy-handle accessor: either the process aborts
(`panic(err)` in the source) or the handle is returned together with the
updated bridge state. There is no error-returning outcome. -/
inductive LazyOutcome (α : Type) where
  | panicked (msg : String)
  | ok (st : LazyHandles) (h : α)
deriving DecidableEq

/-- `SfcContract`: return the stored binding if present; otherwise invoke
the constructor (`contracts.NewSfcContract`), abort on failure, store and
return on success. The constructor outcome is the `ctor` parameter. -/
def SfcContract (ctor : Except String SfcHandle) (s : LazyHandles) :
    LazyOutcome SfcHandle :=
  match s.sfcContract with
  | some h => .ok s h
  | none =>
    match ctor with
    | .error e => .panicked e
    | .ok h => .ok { s with sfcContract := some h, ctorCalls := s.ctorCalls + 1 } h

/-- `SfcAbi`: return the stored parsed ABI if present; otherwise parse
(`abi.JSON`), abort on failure, store and return on success. The parse
outcome is the `parse` parameter. -/
def SfcAbi (parse : Except String SfcAbiVal) (s : LazyHandles) :
    LazyOutcome SfcAbiVal :=
  match s.sfcAbi with
  | some a => .ok s a
  | none =>
    match parse with
    | .error e => .panicked e
    | .ok a => .ok { s with sfcAbi := some a, parseCalls := s.parseCalls + 1 } a

/-! ## DeFi token listing (sfc_base.go: `DefiTokens`, `defiTokensList`,
`defiTokenDetail`, `decodeToken`) -/

/-- The registry contract's internal token representation, as decoded from
`contract.Tokens`. `id` models the `*big.Int` field (`none` is a nil
pointer); addresses are opaque naturals. -/
structure RawToken where
  id : Option Nat
  name : String
  symbol : String
  decimals : Nat
  logo : String
  oracle : Nat
  priceDecimals : Nat
  isActive : Bool
  canDeposit : Bool
  canMint : Bool
deriving DecidableEq

/-- The API-level token structure `types.DefiToken`. -/
structure DefiToken where
  address : Nat
  index : Nat
  name : String
  symbol : String
  logoUrl : String
  decimals : Int
  priceDecimals : Int
  isActive : Bool
  canDeposit : Bool
  canMint : Bool
  canBorrow : Bool
  canTrade : Bool
deriving DecidableEq

/-- `decodeToken`: reject a nil or zero id, otherwise build the API
structure; `CanBorrow` and `CanTrade` are hard-coded to `false`. -/
def decodeToken (addr : Nat) (tk : RawToken) : Except String DefiToken :=
  match tk.id with
  | none => .error "token undefined"
  | some i =>
    if i = 0 then .error "token undefined"
    else
      .ok { address := addr, index := i, name := tk.name, symbol := tk.symbol,
            logoUrl := tk.logo, decimals := (tk.decimals : Int),
            priceDecimals := (tk.priceDecimals : Int), isActive := tk.isActive,
            canDeposit := tk.canDeposit, canMint := tk.canMint,
            canBorrow := false, canTrade := false }

/-- `defiTokenDetail`: load the raw token from the registry contract
(outcome given by `lookup`), then decode it; either failure aborts. -/
def defiTokenDetail (lookup : Nat → Except String RawToken) (addr : Nat) :
    Except String DefiToken :=
  match lookup addr with
  | .error e => .error e
  | .ok tk => decodeToken addr tk

/-- The loop body of `defiTokensList`: walk the address list, abort on the
first failing token, append a decoded token to the accumulator when its
`IsActive` flag is set. -/
def defiTokensGo (lookup : Nat → Except String RawToken) :
    List Nat → List DefiToken → Except String (List DefiToken)
  | [], acc => .ok acc
  | addr :: rest, acc =>
    match defiTokenDetail lookup addr with
    | .error e => .error e
    | .ok tk => defiTokensGo lookup rest (if tk.isActive then acc ++ [tk] else acc)

/-- `defiTokensList`: obtain the registry's address list (outcome given by
`addrs`, from `defiTokenAddressList`), then fold over it. -/
def defiTokensList (lookup : Nat → Except String RawToken)
    (addrs : Except String (List Nat)) : Except String (List DefiToken) :=
  match addrs with
  | .error e => .error e
  | .ok al => defiTokensGo lookup al []

/-- `DefiTokens`: connect the registry contract (outcome given by
`registry`), then delegate to `defiTokensList`. -/
def DefiTokens (registry : Except String Unit)
    (lookup : Nat → Except String RawToken)
    (addrs : Except String (List Nat)) : Except String (List DefiToken) :=
  match registry with
  | .error e => .error e
  | .ok _ => defiTokensList lookup addrs

/-- The value a successful `defiTokensList` keeps for one address: the
decoded token when the lookup and decode succeed and the token is active,
nothing otherwise. -/
def activeTokenOf (lookup : Nat → Except String RawToken) (addr : Nat) :
    Option DefiToken :=
  match defiTokenDetail lookup addr with
  | .ok tk => if tk.isActive then some tk else none
  | .error _ => none

/-- A tiny concrete registry: address 1 holds an active token, any other
address an inactive one. -/
def defiLookupA : Nat → Except String RawToken :=
  fun a =>
    if a = 1 then .ok ⟨some 4, "a", "A", 0, "", 0, 0, true, false, false⟩
    else .ok ⟨some 5, "b", "B", 0, "", 0, 0, false, false, false⟩

/-- A registry whose token loads always fail. -/
def defiLookupB : Nat → Except String RawToken := fun _ => .error "gone"

/-! ## Call-option cache (blk_observer.go: `DefaultCallOpts` over
`singleflight.Group`)

`golang.org/x/sync/singleflight` keeps an entry in its map only while a
call is in flight: `Do` joins an existing in-flight call if present,
otherwise it runs the function and deletes the entry once the function
returns. The model tracks, for the single key `default-call-opts`, the
set of callers joined to the current flight, how many times the
options-constructing closure has been executed, and which execution's
result each finished caller received. -/

/-- Events at the singleflight group for the key `default-call-opts`:
a caller entering `Do`, or the in-flight function returning. -/
inductive SfEvent where
  | arrive (caller : Nat)
  | complete
deriving DecidableEq

/-- State of the singleflight group for the single key. -/
structure SfState where
  inflight : Option (List Nat)
  execCount : Nat
  results : List (Nat × Nat)
deriving DecidableEq

/-- A fresh singleflight group: no flight, no executions. -/
def sfInit : SfState := ⟨none, 0, []⟩

/-- One step of the singleflight group. An arriving caller joins the
in-flight call if one exists; otherwise it starts a new flight and the
closure is executed (execution counter increments). Completion hands every
joined caller the result of the current execution and deletes the entry. -/
def sfStep (s : SfState) (ev : SfEvent) : SfState :=
  match ev with
  | .arrive c =>
    match s.inflight with
    | some cs => { s with inflight := some (cs ++ [c]) }
    | none => { s with inflight := some [c], execCount := s.execCount + 1 }
  | .complete =>
    match s.inflight with
    | some cs =>
      { inflight := none, execCount := s.execCount,
        results := s.results ++ cs.map (fun c => (c, s.execCount)) }
    | none => s

/-- Run the group from a fresh state over a sequence of events. -/
def sfRun (evs : List SfEvent) : SfState := evs.foldl sfStep sfInit

/-- Number of flight-starting arrivals in an event sequence, given whether
a call is currently in flight. -/
def flightsStarted : List SfEvent → Bool → Nat
  | [], _ => 0
  | .arrive _ :: rest, true => flightsStarted rest true
  | .arrive _ :: rest, false => flightsStarted rest true + 1
  | .complete :: rest, _ => flightsStarted rest false

/-! ## Shutdown coordination (blk_observer.go: `run`, `terminate`,
`sigClose`, `wg`) -/

/-- Capacity of the `sigClose` channel: `make(chan bool, 1)`. -/
def sigCloseCapacity : Nat := 1

/-- The bridge state relevant to shutdown: the `sigClose` buffer, the
wait-group counter, and whether the observer goroutine is still running. -/
structure ShutdownState where
  sigClose : List Bool
  wgCount : Nat
  loopRunning : Bool
deriving DecidableEq

/-- `chain.sigClose <- true`: enqueue if the capacity-one buffer has room,
otherwise the sender blocks (`none`). -/
def sigSend (s : ShutdownState) : Option ShutdownState :=
  if s.sigClose.length < sigCloseCapacity then
    some { s with sigClose := s.sigClose ++ [true] }
  else none

/-- The observer loop receiving from `sigClose` and exiting: consume the
signal, run the deferred `wg.Done()`, stop running. Blocks (`none`) if no
signal is buffered. -/
def loopReceiveClose (s : ShutdownState) : Option ShutdownState :=
  match s.sigClose with
  | [] => none
  | _ :: rest => some { sigClose := rest, wgCount := s.wgCount - 1, loopRunning := false }

/-- `chain.wg.Wait()`: returns only once the counter is zero. -/
def wgWait (s : ShutdownState) : Option ShutdownState :=
  if s.wgCount = 0 then some s else none

/-- Bridge state right after `run()`: `wg.Add(1)` and the loop started,
no close signal buffered. -/
def bridgeStart : ShutdownState := ⟨[], 1, true⟩

/-- State after one completed shutdown: the loop consumed the signal and
exited, the wait group reached zero, the buffer is empty again. -/
def afterFirstShutdown : ShutdownState := ⟨[], 0, false⟩

/-- A second `terminate` after the loop has exited: the send and the wait,
with no receiver left to consume the signal. -/
def terminateAgain (s : ShutdownState) : Option ShutdownState :=
  (sigSend s).bind wgWait

/-! ## The observer loop (blk_observer.go: `observeBlocks`,
`blockSubscription`, `chainHeadsObserverSubscribeTick`)

`observeBlocks` is modelled as a labelled transition system. Its phases
follow the Go control flow: the initial `blockSubscription()` call before
the loop (`booting`); the `sub == nil` branch waiting on a fresh
30-second timer racing the close signal (`waiting deadline`); the
`sub != nil` branch waiting on the subscription error channel racing the
close signal (`subscribed`); and the function having returned
(`terminated`), where the deferred block has run `Unsubscribe` (if a
subscription was held) followed by `wg.Done()`.

While subscribed, new heads are pushed into the proxy channel by the
go-ethereum client that `blockSubscription` registered the channel with
(`EthSubscribe(ctx, chain.headers, "newHeads")`); the loop body itself
contains no send on the channel, so head-delivery actions are tagged with
the transport as their writer. -/

/-- Retry interval between subscription attempts, from the Go constant
`chainHeadsObserverSubscribeTick = 30 * time.Second`, in seconds. -/
def chainHeadsObserverSubscribeTick : Nat := 30

/-- Control phase of `observeBlocks`. -/
inductive ObsPhase where
  | booting
  | waiting (deadline : Nat)
  | subscribed
  | terminated
deriving DecidableEq

/-- A configuration: the current time (seconds) and the loop phase. -/
structure ObsConfig where
  now : Nat
  phase : ObsPhase
deriving DecidableEq

/-- Who performs a send on the head proxy channel. -/
inductive Writer where
  | observerLoop
  | transportSub
deriving DecidableEq

/-- Observable actions of the pipeline. -/
inductive ObsAction where
  | subscribeAttempt
  | sendHead (w : Writer) (hd : Nat)
  | unsubscribe
  | wgDone
  | errorLogged
deriving DecidableEq

/-- One transition of `observeBlocks`, labelled with the timestamped
actions it performs. Timer firings happen exactly at the armed deadline;
close signals, subscription errors and head deliveries may happen at any
later time. -/
inductive ObsStep : ObsConfig → List (Nat × ObsAction) → ObsConfig → Prop where
  | bootOk (t : Nat) :
      ObsStep ⟨t, .booting⟩ [(t, .subscribeAttempt)] ⟨t, .subscribed⟩
  | bootFail (t : Nat) :
      ObsStep ⟨t, .booting⟩ [(t, .subscribeAttempt)]
        ⟨t, .waiting (t + chainHeadsObserverSubscribeTick)⟩
  | waitClose (t d t2 : Nat) (h : t ≤ t2) :
      ObsStep ⟨t, .waiting d⟩ [(t2, .wgDone)] ⟨t2, .terminated⟩
  | waitTimerOk (t d : Nat) (h : t ≤ d) :
      ObsStep ⟨t, .waiting d⟩ [(d, .subscribeAttempt)] ⟨d, .subscribed⟩
  | waitTimerFail (t d : Nat) (h : t ≤ d) :
      ObsStep ⟨t, .waiting d⟩ [(d, .subscribeAttempt)]
        ⟨d, .waiting (d + chainHeadsObserverSubscribeTick)⟩
  | subClose (t t2 : Nat) (h : t ≤ t2) :
      ObsStep ⟨t, .subscribed⟩ [(t2, .unsubscribe), (t2, .wgDone)] ⟨t2, .terminated⟩
  | subErr (t t2 : Nat) (h : t ≤ t2) :
      ObsStep ⟨t, .subscribed⟩ [(t2, .errorLogged)]
        ⟨t2, .waiting (t2 + chainHeadsObserverSubscribeTick)⟩
  | subHead (t t2 hd : Nat) (h : t ≤ t2) :
      ObsStep ⟨t, .subscribed⟩ [(t2, .sendHead .transportSub hd)] ⟨t2, .subscribed⟩

/-- Multi-step reachability, accumulating the performed actions. -/
inductive ObsReach : ObsConfig → List (Nat × ObsAction) → ObsConfig → Prop where
  | refl (c : ObsConfig) : ObsReach c [] c
  | step {c1 c2 c3 : ObsConfig} {tr acts : List (Nat × ObsAction)} :
      ObsReach c1 tr c2 → ObsStep c2 acts c3 → ObsReach c1 (tr ++ acts) c3

/-- How many times a given action occurs in a trace. -/
def countAct (a : ObsAction) (tr : List (Nat × ObsAction)) : Nat :=
  (tr.filter (fun p => p.2 == a)).length

/-- The times at which subscribe attempts occur in a trace, in order. -/
def attempts (tr : List (Nat × ObsAction)) : List Nat :=
  tr.filterMap (fun p => if p.2 = ObsAction.subscribeAttempt then some p.1 else none)

/-- Earliest time the next subscribe attempt can happen from a
configuration: immediately while booting, at the armed deadline while
waiting, only after an error plus a full tick while subscribed. -/
def attemptBound : ObsConfig → Nat
  | ⟨t, .booting⟩ => t
  | ⟨_, .waiting d⟩ => d
  | ⟨t, .subscribed⟩ => t + chainHeadsObserverSubscribeTick
  | ⟨_, .terminated⟩ => 0

/-! ## Helper lemmas -/

/-- A decoded token always carries `canBorrow = false` and
`canTrade = false`, and reflects the raw `isActive` flag. -/
theorem decodeToken_flags (addr : Nat) (tk : RawToken) (dt : DefiToken)
    (h : decodeToken addr tk = .ok dt) :
    dt.canBorrow = false ∧ dt.canTrade = false ∧ dt.isActive = tk.isActive := by
  cases htk : tk.id with
  | none => simp [decodeToken, htk] at h
  | some i =>
    by_cases hi : i = 0
    · simp [decodeToken, htk, hi] at h
    · simp [decodeToken, htk, hi] at h
      subst h
      exact ⟨rfl, rfl, rfl⟩

/-- A successful token detail is a successful lookup followed by a
successful decode. -/
theorem defiTokenDetail_ok (lookup : Nat → Except String RawToken) (a : Nat)
    (tk : DefiToken) (h : defiTokenDetail lookup a = .ok tk) :
    ∃ raw, lookup a = .ok raw ∧ decodeToken a raw = .ok tk := by
  cases hl : lookup a with
  | error e => simp [defiTokenDetail, hl] at h
  | ok raw =>
    refine ⟨raw, rfl, ?_⟩
    simpa [defiTokenDetail, hl] using h

/-- A token kept by the listing is active and has the hard-coded flags. -/
theorem activeTokenOf_some (lookup : Nat → Except String RawToken) (a : Nat)
    (tk : DefiToken) (h : activeTokenOf lookup a = some tk) :
    tk.isActive = true ∧ tk.canBorrow = false ∧ tk.canTrade = false := by
  cases hd : defiTokenDetail lookup a with
  | error e => simp [activeTokenOf, hd] at h
  | ok tk2 =>
    by_cases ha : tk2.isActive
    · simp [activeTokenOf, hd, ha] at h
      subst h
      obtain ⟨raw, _, hdec⟩ := defiTokenDetail_ok lookup a tk2 hd
      obtain ⟨h1, h2, _⟩ := decodeToken_flags a raw tk2 hdec
      exact ⟨ha, h1, h2⟩
    · simp [activeTokenOf, hd, ha] at h

/-- When every address in the list resolves, the listing loop returns the
accumulator extended by the active tokens, in address-list order. -/
theorem defiTokensGo_ok_all (lookup : Nat → Except String RawToken)
    (al : List Nat) (acc : List DefiToken)
    (h : ∀ a ∈ al, ∃ tk, defiTokenDetail lookup a = .ok tk) :
    defiTokensGo lookup al acc = .ok (acc ++ al.filterMap (activeTokenOf lookup)) := by
  induction al generalizing acc with
  | nil => simp [defiTokensGo]
  | cons a rest ih =>
    obtain ⟨tk, htk⟩ := h a (List.mem_cons_self a rest)
    have hrest : ∀ b ∈ rest, ∃ tk2, defiTokenDetail lookup b = .ok tk2 :=
      fun b hb => h b (List.mem_cons_of_mem a hb)
    have hstep : defiTokensGo lookup (a :: rest) acc
        = defiTokensGo lookup rest (if tk.isActive then acc ++ [tk] else acc) := by
      simp [defiTokensGo, htk]
    rw [hstep]
    by_cases ha : tk.isActive
    · rw [if_pos ha, ih (acc ++ [tk]) hrest]
      simp [List.filterMap_cons, activeTokenOf, htk, ha]
    · rw [if_neg ha, ih acc hrest]
      simp [List.filterMap_cons, activeTokenOf, htk, ha]

/-- If any address in the list fails to resolve, the listing loop fails. -/
theorem defiTokensGo_error (lookup : Nat → Except String RawToken)
    (al : List Nat) (acc : List DefiToken) (b : Nat) (hb : b ∈ al) (e : String)
    (he : defiTokenDetail lookup b = .error e) :
    ∃ e2, defiTokensGo lookup al acc = .error e2 := by
  induction al generalizing acc with
  | nil => simp at hb
  | cons a rest ih =>
    cases hd : defiTokenDetail lookup a with
    | error e3 => exact ⟨e3, by simp [defiTokensGo, hd]⟩
    | ok tk =>
      rcases List.mem_cons.mp hb with hba | hbr
      · subst hba; rw [hd] at he; cases he
      · obtain ⟨e2, he2⟩ := ih (if tk.isActive then acc ++ [tk] else acc) hbr
        refine ⟨e2, ?_⟩
        simpa [defiTokensGo, hd] using he2

/-- A successful listing loop implies every address resolved. -/
theorem defiTokensGo_ok_sound (lookup : Nat → Except String RawToken)
    (al : List Nat) (acc L : List DefiToken)
    (h : defiTokensGo lookup al acc = .ok L) :
    ∀ a ∈ al, ∃ tk, defiTokenDetail lookup a = .ok tk := by
  induction al generalizing acc with
  | nil => intro a ha; simp at ha
  | cons a rest ih =>
    intro b hb
    cases hd : defiTokenDetail lookup a with
    | error e =>
      exfalso
      simp [defiTokensGo, hd] at h
    | ok tk =>
      have h2 : defiTokensGo lookup rest (if tk.isActive then acc ++ [tk] else acc) = .ok L := by
        simpa [defiTokensGo, hd] using h
      rcases List.mem_cons.mp hb with hba | hbr
      · subst hba; exact ⟨tk, hd⟩
      · exact ih (if tk.isActive then acc ++ [tk] else acc) h2 b hbr

/-- Running the singleflight group adds one execution per flight-starting
arrival. -/
theorem sfRun_execCount (evs : List SfEvent) (s : SfState) :
    (evs.foldl sfStep s).execCount = s.execCount + flightsStarted evs s.inflight.isSome := by
  induction evs generalizing s with
  | nil => simp [flightsStarted]
  | cons ev rest ih =>
    cases ev with
    | arrive c =>
      cases hin : s.inflight with
      | none =>
        rw [List.foldl_cons, ih]
        simp [sfStep, hin, flightsStarted]
        omega
      | some cs =>
        rw [List.foldl_cons, ih]
        simp [sfStep, hin, flightsStarted]
    | complete =>
      cases hin : s.inflight with
      | none =>
        rw [List.foldl_cons, ih]
        simp [sfStep, hin, flightsStarted]
      | some cs =>
        rw [List.foldl_cons, ih]
        simp [sfStep, hin, flightsStarted]

/-- Every transition starts from a live phase: `terminated` has no
outgoing transitions. -/
theorem obsStep_source_live {c : ObsConfig} {acts : List (Nat × ObsAction)}
    {c2 : ObsConfig} (h : ObsStep c acts c2) : c.phase ≠ ObsPhase.terminated := by
  cases h <;> simp

/-- Counting an action distributes over trace concatenation. -/
theorem countAct_append (a : ObsAction) (tr acts : List (Nat × ObsAction)) :
    countAct a (tr ++ acts) = countAct a tr + countAct a acts := by
  simp [countAct, List.filter_append]

/-- Attempt times distribute over trace concatenation. -/
theorem attempts_append (tr acts : List (Nat × ObsAction)) :
    attempts (tr ++ acts) = attempts tr ++ attempts acts := by
  simp [attempts, List.filterMap_append]

/-- Per-transition action counts: `wg.Done` happens exactly on the two
exit transitions, and `Unsubscribe` exactly on the exit transition that
still holds a subscription. -/
theorem obsStep_counts {c : ObsConfig} {acts : List (Nat × ObsAction)}
    {c2 : ObsConfig} (h : ObsStep c acts c2) :
    countAct ObsAction.wgDone acts = (if c2.phase = ObsPhase.terminated then 1 else 0) ∧
    countAct ObsAction.unsubscribe acts =
      (if c2.phase = ObsPhase.terminated ∧ c.phase = ObsPhase.subscribed then 1 else 0) := by
  cases h <;> exact ⟨rfl, rfl⟩

/-- The `terminated` phase is absorbing: nothing is reachable from it and
no further actions occur. -/
theorem obsReach_terminated {c1 : ObsConfig} {tr : List (Nat × ObsAction)}
    {c2 : ObsConfig} (h : ObsReach c1 tr c2)
    (ht : c1.phase = ObsPhase.terminated) : tr = [] ∧ c2 = c1 := by
  induction h with
  | refl => exact ⟨rfl, rfl⟩
  | step h12 hs ih =>
    obtain ⟨htr, hc⟩ := ih
    subst hc
    exact absurd ht (obsStep_source_live hs)

/-- Along any run from a live configuration, `wg.Done` has happened exactly
once when the loop has terminated and never before, and `Unsubscribe` at
most once. -/
theorem obsReach_wgDone {c1 : ObsConfig} {tr : List (Nat × ObsAction)}
    {c2 : ObsConfig} (h : ObsReach c1 tr c2)
    (hl : c1.phase ≠ ObsPhase.terminated) :
    countAct ObsAction.wgDone tr = (if c2.phase = ObsPhase.terminated then 1 else 0) ∧
    countAct ObsAction.unsubscribe tr ≤ (if c2.phase = ObsPhase.terminated then 1 else 0) := by
  induction h with
  | refl => simp [countAct, if_neg hl]
  | @step cmid c3 trx actsx h12 hs ih =>
    have hmid := obsStep_source_live hs
    obtain ⟨ih1, ih2⟩ := ih
    rw [if_neg hmid] at ih1 ih2
    obtain ⟨hs1, hs2⟩ := obsStep_counts hs
    constructor
    · rw [countAct_append, ih1, hs1]
      omega
    · rw [countAct_append, hs2, Nat.le_zero.mp ih2]
      by_cases hA : c3.phase = ObsPhase.terminated
      · simp only [hA, true_and, if_true]
        by_cases hB : cmid.phase = ObsPhase.subscribed <;> simp [hB]
      · simp [hA]

/-- Per-transition facts about subscribe attempts: an attempt happens only
at the earliest allowed time of the source configuration; that earliest
time is monotone along live transitions; new attempts stay a full tick
below the target's earliest next-attempt time; one transition makes at
most one attempt. -/
theorem obsStep_attempts {c : ObsConfig} {acts : List (Nat × ObsAction)}
    {c2 : ObsConfig} (h : ObsStep c acts c2) :
    (∀ u ∈ attempts acts, u = attemptBound c) ∧
    (c2.phase ≠ ObsPhase.terminated → attemptBound c ≤ attemptBound c2) ∧
    (∀ u ∈ attempts acts, c2.phase ≠ ObsPhase.terminated →
      u + chainHeadsObserverSubscribeTick ≤ attemptBound c2) ∧
    List.Pairwise (fun a b => a + chainHeadsObserverSubscribeTick ≤ b) (attempts acts) := by
  cases h <;>
    refine ⟨?_, ?_, ?_, ?_⟩ <;>
    simp [attempts, attemptBound] <;>
    omega

/-- Along any run, subscribe attempts are pairwise separated by at least a
full retry tick, and (while the loop is live) the last attempt lies a full
tick before the earliest next possible attempt. -/
theorem obsReach_attempts_spaced {c1 : ObsConfig} {tr : List (Nat × ObsAction)}
    {c2 : ObsConfig} (h : ObsReach c1 tr c2) :
    (c2.phase ≠ ObsPhase.terminated →
      ∀ a ∈ attempts tr, a + chainHeadsObserverSubscribeTick ≤ attemptBound c2) ∧
    List.Pairwise (fun a b => a + chainHeadsObserverSubscribeTick ≤ b) (attempts tr) := by
  induction h with
  | refl => exact ⟨fun _ a ha => by simp [attempts] at ha, by simp [attempts]⟩
  | step h12 hs ih =>
    obtain ⟨ihB, ihP⟩ := ih
    have hmid := obsStep_source_live hs
    obtain ⟨hAt, hMono, hFwd, hPacts⟩ := obsStep_attempts hs
    constructor
    · intro hne a ha
      rw [attempts_append, List.mem_append] at ha
      cases ha with
      | inl h0 => exact le_trans (ihB hmid a h0) (hMono hne)
      | inr h0 => exact hFwd a h0 hne
    · rw [attempts_append]
      refine List.pairwise_append.mpr ⟨ihP, hPacts, ?_⟩
      intro a ha b hb
      have hb2 := hAt b hb
      have ha2 := ihB hmid a ha
      omega

/-! ## Claim theorems -/

/-- Claim C7: the head proxy channel is created with fixed capacity exactly
10000, and a send on a full channel blocks the producer instead of
dropping any notification; a successful send only appends the new item,
never removing an existing one. -/
theorem headProxyChannel_capacity_blocking :
    newHeaders.cap = 10000 ∧
    (∀ (c : BChan Nat) (x : Nat), c.buf.length = c.cap → chanSend c x = none) ∧
    (∀ (c : BChan Nat) (x : Nat) (c2 : BChan Nat), chanSend c x = some c2 →
      c2.buf = c.buf ++ [x] ∧ c2.cap = c.cap) := by
  refine ⟨rfl, ?_, ?_⟩
  · intro c x hfull
    simp [chanSend, hfull]
  · intro c x c2 hsend
    unfold chanSend at hsend
    by_cases hlt : c.buf.length < c.cap
    · rw [if_pos hlt] at hsend
      cases hsend
      exact ⟨rfl, rfl⟩
    · rw [if_neg hlt] at hsend
      cases hsend

/-- Witness for C7: a channel of capacity 2 holding two items blocks the
sender. -/
theorem headProxyChannel_capacity_blocking_witness :
    chanSend (⟨2, [5, 6]⟩ : BChan Nat) 7 = none :=
  headProxyChannel_capacity_blocking.2.1 ⟨2, [5, 6]⟩ 7 rfl

/-- Claim C9: `BlockByHash` returns the error `block not found` exactly
when the RPC call succeeds and the decoded block number is zero (so a
zero-numbered block, the genesis, is never returned by hash), while
`Block` returns whatever block the successful RPC call decoded, with no
zero-number check. -/
theorem BlockByHash_zero_number_check (call : Except String GBlock) :
    (BlockByHash call = .error .notFound ↔ ∃ b, call = .ok b ∧ b.number = 0) ∧
    (∀ b, call = .ok b → Block call = .ok b) ∧
    (∀ b, BlockByHash call = .ok b → b.number ≠ 0) ∧
    (∀ b, call = .ok b → b.number ≠ 0 → BlockByHash call = .ok b) := by
  refine ⟨⟨?_, ?_⟩, ?_, ?_, ?_⟩
  · intro h
    cases call with
    | error e => simp [BlockByHash] at h
    | ok b =>
      refine ⟨b, rfl, ?_⟩
      by_cases hn : b.number = 0
      · exact hn
      · simp [BlockByHash, hn] at h
  · rintro ⟨b, hcall, hn⟩
    subst hcall
    simp [BlockByHash, hn]
  · intro b hcall
    subst hcall
    simp [Block]
  · intro b hok
    cases call with
    | error e => simp [BlockByHash] at hok
    | ok b2 =>
      intro hn
      by_cases h2 : b2.number = 0
      · simp [BlockByHash, h2] at hok
      · simp [BlockByHash, h2] at hok
        subst hok
        exact h2 hn
  · intro b hcall hn
    subst hcall
    simp [BlockByHash, hn]

/-- Witness for C9: a decoded block with number zero is rejected by hash
lookup but returned by number lookup. -/
theorem BlockByHash_zero_number_check_witness :
    BlockByHash (.ok ⟨0, 7⟩) = .error .notFound ∧
    Block (.ok ⟨0, 7⟩) = .ok ⟨0, 7⟩ :=
  ⟨(BlockByHash_zero_number_check (.ok ⟨0, 7⟩)).1.mpr ⟨⟨0, 7⟩, rfl, rfl⟩,
   (BlockByHash_zero_number_check (.ok ⟨0, 7⟩)).2.1 ⟨0, 7⟩ rfl⟩

/-- Claim C8: for both lazily-initialised shared handles, construction
failure aborts (the outcome is `panicked`, never an error value); a
successful construction is stored, and every later call returns the stored
handle unchanged without invoking the constructor again (the invocation
counters stay put). -/
theorem SfcHandles_fatal_and_memoized (ctor ctor2 : Except String SfcHandle)
    (parse parse2 : Except String SfcAbiVal) (s : LazyHandles) :
    (∀ e, s.sfcContract = none → ctor = .error e → SfcContract ctor s = .panicked e) ∧
    (∀ h, s.sfcContract = none → ctor = .ok h →
      SfcContract ctor s =
        .ok { s with sfcContract := some h, ctorCalls := s.ctorCalls + 1 } h ∧
      SfcContract ctor2 { s with sfcContract := some h, ctorCalls := s.ctorCalls + 1 } =
        .ok { s with sfcContract := some h, ctorCalls := s.ctorCalls + 1 } h) ∧
    (∀ h, s.sfcContract = some h → SfcContract ctor2 s = .ok s h) ∧
    (∀ e, s.sfcAbi = none → parse = .error e → SfcAbi parse s = .panicked e) ∧
    (∀ a, s.sfcAbi = none → parse = .ok a →
      SfcAbi parse s =
        .ok { s with sfcAbi := some a, parseCalls := s.parseCalls + 1 } a ∧
      SfcAbi parse2 { s with sfcAbi := some a, parseCalls := s.parseCalls + 1 } =
        .ok { s with sfcAbi := some a, parseCalls := s.parseCalls + 1 } a) ∧
    (∀ a, s.sfcAbi = some a → SfcAbi parse2 s = .ok s a) := by
  refine ⟨?_, ?_, ?_, ?_, ?_, ?_⟩
  · intro e h1 h2; simp [SfcContract, h1, h2]
  · intro h h1 h2; exact ⟨by simp [SfcContract, h1, h2], by simp [SfcContract]⟩
  · intro h h1; simp [SfcContract, h1]
  · intro e h1 h2; simp [SfcAbi, h1, h2]
  · intro a h1 h2; exact ⟨by simp [SfcAbi, h1, h2], by simp [SfcAbi]⟩
  · intro a h1; simp [SfcAbi, h1]

/-- Witness for C8: a failing constructor aborts on first access; after a
successful first access the stored contract handle is simply returned. -/
theorem SfcHandles_fatal_and_memoized_witness :
    SfcContract (.error "no contract") ⟨none, none, 0, 0⟩ = .panicked "no contract" ∧
    SfcContract (.error "ignored") ⟨some ⟨9⟩, none, 1, 0⟩ = .ok ⟨some ⟨9⟩, none, 1, 0⟩ ⟨9⟩ ∧
    SfcAbi (.error "bad json") ⟨none, none, 0, 0⟩ = .panicked "bad json" :=
  ⟨(SfcHandles_fatal_and_memoized (.error "no contract") (.ok ⟨1⟩)
      (.ok ⟨2⟩) (.ok ⟨2⟩) ⟨none, none, 0, 0⟩).1 "no contract" rfl rfl,
   (SfcHandles_fatal_and_memoized (.ok ⟨1⟩) (.error "ignored")
      (.ok ⟨2⟩) (.ok ⟨2⟩) ⟨some ⟨9⟩, none, 1, 0⟩).2.2.1 ⟨9⟩ rfl,
   (SfcHandles_fatal_and_memoized (.ok ⟨1⟩) (.ok ⟨1⟩)
      (.error "bad json") (.ok ⟨2⟩) ⟨none, none, 0, 0⟩).2.2.2.1 "bad json" rfl rfl⟩

/-- Claim C10: `DefiTokens` (through `defiTokensList`) returns exactly the
active tokens, in the registry's address order, when every token loads and
decodes; it fails as a whole when any single token fails (no partial
result); and every returned token is active with `CanBorrow` and
`CanTrade` forced to `false`. -/
theorem DefiTokens_active_ordered_all_or_nothing
    (lookup : Nat → Except String RawToken) (al : List Nat) :
    ((∀ a ∈ al, ∃ tk, defiTokenDetail lookup a = .ok tk) →
      DefiTokens (.ok ()) lookup (.ok al) = .ok (al.filterMap (activeTokenOf lookup))) ∧
    (∀ b ∈ al, ∀ e, defiTokenDetail lookup b = .error e →
      ∃ e2, DefiTokens (.ok ()) lookup (.ok al) = .error e2) ∧
    (∀ L, DefiTokens (.ok ()) lookup (.ok al) = .ok L →
      ∀ tk ∈ L, tk.isActive = true ∧ tk.canBorrow = false ∧ tk.canTrade = false) := by
  refine ⟨?_, ?_, ?_⟩
  · intro h
    have := defiTokensGo_ok_all lookup al [] h
    simpa [DefiTokens, defiTokensList] using this
  · intro b hb e he
    obtain ⟨e2, he2⟩ := defiTokensGo_error lookup al [] b hb e he
    exact ⟨e2, by simpa [DefiTokens, defiTokensList] using he2⟩
  · intro L hL tk htk
    have hgo : defiTokensGo lookup al [] = .ok L := by
      simpa [DefiTokens, defiTokensList] using hL
    have hall := defiTokensGo_ok_sound lookup al [] L hgo
    have hchar := defiTokensGo_ok_all lookup al [] hall
    rw [hgo] at hchar
    have hmem : tk ∈ al.filterMap (activeTokenOf lookup) := by
      have hLe : L = al.filterMap (activeTokenOf lookup) := by
        simpa using hchar
      rw [hLe] at htk
      exact htk
    obtain ⟨a, _, ha⟩ := List.mem_filterMap.mp hmem
    exact activeTokenOf_some lookup a tk ha

/-- Witness for C10: a two-token registry where only the first token is
active yields exactly that token; a failing token fails the whole call. -/
theorem DefiTokens_active_ordered_all_or_nothing_witness :
    DefiTokens (.ok ()) defiLookupA (.ok [1, 2]) =
      .ok [⟨1, 4, "a", "A", "", 0, 0, true, false, false, false, false⟩] ∧
    (∃ e2, DefiTokens (.ok ()) defiLookupB (.ok [1]) = .error e2) := by
  constructor
  · have hall : ∀ a ∈ [1, 2], ∃ tk, defiTokenDetail defiLookupA a = .ok tk := by
      intro a ha
      simp only [List.mem_cons, List.not_mem_nil, or_false] at ha
      rcases ha with rfl | rfl
      · exact ⟨_, rfl⟩
      · exact ⟨_, rfl⟩
    rw [(DefiTokens_active_ordered_all_or_nothing defiLookupA [1, 2]).1 hall]
    rfl
  · exact (DefiTokens_active_ordered_all_or_nothing defiLookupB [1]).2.1 1
      (List.mem_singleton.mpr rfl) "gone" rfl

/-- Claim C1, counterexample: `singleflight.Group.Do` deletes the key once
the in-flight function returns, so two non-overlapping calls to
`DefaultCallOpts` execute the options-constructing closure twice — it is
not executed at most once across the cache's lifetime. -/
theorem DefaultCallOpts_reexecutes_after_completion :
    ¬ ((sfRun [SfEvent.arrive 1, SfEvent.complete,
               SfEvent.arrive 2, SfEvent.complete]).execCount ≤ 1) := by
  decide

/-- Claim C1, amended: the closure runs once per in-flight window, not once
per lifetime: a caller arriving while a call is in flight joins it without
re-invoking the closure, a caller arriving with no call in flight starts a
new flight and invokes the closure once, every caller joined to a flight
receives that flight's single execution result, and over any event
sequence the number of executions equals the number of flights started. -/
theorem DefaultCallOpts_coalesces_per_flight (s : SfState) (c : Nat)
    (cs : List Nat) (evs : List SfEvent) :
    (s.inflight = some cs → (sfStep s (.arrive c)).execCount = s.execCount) ∧
    (s.inflight = none → (sfStep s (.arrive c)).execCount = s.execCount + 1) ∧
    (s.inflight = some cs → ∀ x ∈ cs, (x, s.execCount) ∈ (sfStep s .complete).results) ∧
    (sfRun evs).execCount = flightsStarted evs false := by
  refine ⟨?_, ?_, ?_, ?_⟩
  · intro h; simp [sfStep, h]
  · intro h; simp [sfStep, h]
  · intro h x hx
    have hres : (sfStep s SfEvent.complete).results
        = s.results ++ cs.map (fun y => (y, s.execCount)) := by
      simp [sfStep, h]
    rw [hres]
    exact List.mem_append.mpr (Or.inr (List.mem_map.mpr ⟨x, hx, rfl⟩))
  · have := sfRun_execCount evs sfInit
    simpa [sfRun, sfInit] using this

/-- Witness for C1's amended theorem: a second caller joining the flight of
a first one shares its execution, and a three-event run starts exactly one
flight. -/
theorem DefaultCallOpts_coalesces_per_flight_witness :
    (7, 1) ∈ (sfStep ⟨some [7], 1, []⟩ SfEvent.complete).results ∧
    (sfRun [SfEvent.arrive 1, SfEvent.arrive 2, SfEvent.complete]).execCount =
      flightsStarted [SfEvent.arrive 1, SfEvent.arrive 2, SfEvent.complete] false :=
  ⟨(DefaultCallOpts_coalesces_per_flight ⟨some [7], 1, []⟩ 0 [7] []).2.2.1 rfl 7
      (List.mem_singleton.mpr rfl),
   (DefaultCallOpts_coalesces_per_flight sfInit 0 []
      [SfEvent.arrive 1, SfEvent.arrive 2, SfEvent.complete]).2.2.2⟩

/-- Claim C3, counterexample: after one completed shutdown, a second
`terminate` returns (the capacity-one `sigClose` buffer absorbs the send
and `wg.Wait` is already at zero) but does not leave the state unchanged:
the signal stays buffered, and a third send would block. Calling shutdown
twice is therefore not equivalent to calling it once. -/
theorem terminate_twice_changes_state :
    terminateAgain afterFirstShutdown = some ⟨[true], 0, false⟩ ∧
    (⟨[true], 0, false⟩ : ShutdownState) ≠ afterFirstShutdown ∧
    sigSend ⟨[true], 0, false⟩ = none := by
  decide

/-- Claim C3, amended: after one completed shutdown (signal consumed, wait
group at zero), a second shutdown request neither blocks nor panics — the
send is absorbed by the capacity-one buffer and the wait returns at once —
but it is not a no-op: the close-signal buffer is left full, and a third
request would block on it. -/
theorem terminate_second_call (s : ShutdownState)
    (hw : s.wgCount = 0) (hb : s.sigClose = []) :
    terminateAgain s = some { s with sigClose := [true] } ∧
    { s with sigClose := [true] } ≠ s ∧
    sigSend { s with sigClose := [true] } = none ∧
    ((sigSend bridgeStart).bind loopReceiveClose).bind wgWait = some afterFirstShutdown := by
  refine ⟨?_, ?_, ?_, by decide⟩
  · simp [terminateAgain, sigSend, wgWait, hb, hw, sigCloseCapacity]
  · intro h
    have h2 := congrArg ShutdownState.sigClose h
    simp [hb] at h2
  · simp [sigSend, sigCloseCapacity]

/-- Witness for C3's amended theorem at the state reached after the first
completed shutdown. -/
theorem terminate_second_call_witness :
    terminateAgain afterFirstShutdown = some ⟨[true], 0, false⟩ ∧
    sigSend ⟨[true], 0, false⟩ = none :=
  ⟨(terminate_second_call afterFirstShutdown rfl rfl).1,
   (terminate_second_call afterFirstShutdown rfl rfl).2.2.1⟩

/-- Claim C2, counterexample: a head notification reaches the proxy
channel in a reachable run, yet the write is performed by the transport
subscription that `blockSubscription` registered the channel with — not by
the `observeBlocks` task itself, which contains no send on the channel. -/
theorem headProxy_not_written_by_loop_itself :
    ObsReach ⟨0, .booting⟩
      [(0, ObsAction.subscribeAttempt), (1, ObsAction.sendHead .transportSub 5)]
      ⟨1, .subscribed⟩ ∧
    (1, ObsAction.sendHead .transportSub 5) ∈
      [(0, ObsAction.subscribeAttempt), (1, ObsAction.sendHead .transportSub 5)] ∧
    Writer.transportSub ≠ Writer.observerLoop := by
  refine ⟨?_, by decide, by decide⟩
  have h1 : ObsReach ⟨0, .booting⟩ ([] ++ [(0, ObsAction.subscribeAttempt)])
      ⟨0, .subscribed⟩ :=
    ObsReach.step (ObsReach.refl _) (ObsStep.bootOk 0)
  have h2 := ObsReach.step h1 (ObsStep.subHead 0 1 5 (by decide))
  simpa using h2

/-- Claim C2, amended: every head notification that appears on the proxy
channel is written by the transport through the subscription that the
`observeBlocks` task established (writes happen only while the loop is
subscribed), and no other writer — in particular not the loop itself —
ever sends on the channel. -/
theorem headProxy_sole_feed :
    (∀ c acts c2, ObsStep c acts c2 → ∀ u w hd, (u, ObsAction.sendHead w hd) ∈ acts →
      w = Writer.transportSub ∧ c.phase = ObsPhase.subscribed ∧
        c2.phase = ObsPhase.subscribed) ∧
    (∀ c0 tr c, ObsReach c0 tr c → ∀ u w hd, (u, ObsAction.sendHead w hd) ∈ tr →
      w = Writer.transportSub) := by
  have hstep : ∀ c acts c2, ObsStep c acts c2 →
      ∀ u w hd, (u, ObsAction.sendHead w hd) ∈ acts →
      w = Writer.transportSub ∧ c.phase = ObsPhase.subscribed ∧
        c2.phase = ObsPhase.subscribed := by
    intro c acts c2 h u w hd hm
    cases h <;> simp_all
  refine ⟨hstep, ?_⟩
  intro c0 tr c h
  induction h with
  | refl => intro u w hd hm; simp at hm
  | step h12 hs ih =>
    intro u w hd hm
    rcases List.mem_append.mp hm with hm1 | hm2
    · exact ih u w hd hm1
    · exact (hstep _ _ _ hs u w hd hm2).1

/-- Witness for C2's amended theorem on a concrete two-step run delivering
one head while subscribed. -/
theorem headProxy_sole_feed_witness :
    Writer.transportSub = Writer.transportSub := by
  have h1 : ObsReach ⟨0, .booting⟩ ([] ++ [(0, ObsAction.subscribeAttempt)])
      ⟨0, .subscribed⟩ :=
    ObsReach.step (ObsReach.refl _) (ObsStep.bootOk 0)
  have h2 := ObsReach.step h1 (ObsStep.subHead 0 2 9 (by decide))
  exact headProxy_sole_feed.2 _ _ _ h2 2 Writer.transportSub 9 (by simp)

/-- Claim C4: from every live loop state — waiting out the retry timer or
subscribed — the close signal drives the loop to `terminated`, with
`Unsubscribe` (when a subscription is held) happening before the final
`wg.Done`; `terminated` is absorbing, so no action (in particular no write
to the head proxy channel) follows; and sending the close signal itself
cannot block when the buffer is empty, so `terminate` returns. -/
theorem terminate_always_completes :
    (∀ t d, ObsStep ⟨t, .waiting d⟩ [(t, ObsAction.wgDone)] ⟨t, .terminated⟩) ∧
    (∀ t, ObsStep ⟨t, .subscribed⟩
      [(t, ObsAction.unsubscribe), (t, ObsAction.wgDone)] ⟨t, .terminated⟩) ∧
    (∀ t tr c, ObsReach ⟨t, .terminated⟩ tr c → tr = [] ∧ c = ⟨t, .terminated⟩) ∧
    (∀ s : ShutdownState, s.sigClose = [] → (sigSend s).isSome = true) := by
  refine ⟨?_, ?_, ?_, ?_⟩
  · intro t d
    exact ObsStep.waitClose t d t (Nat.le_refl t)
  · intro t
    exact ObsStep.subClose t t (Nat.le_refl t)
  · intro t tr c h
    exact obsReach_terminated h rfl
  · intro s hb
    simp [sigSend, hb, sigCloseCapacity]

/-- Witness for C4 at concrete states: a waiting loop and a subscribed
loop both terminate on the close signal, nothing follows termination, and
the close send succeeds on the freshly started bridge. -/
theorem terminate_always_completes_witness :
    ObsStep ⟨0, .waiting 30⟩ [(0, ObsAction.wgDone)] ⟨0, .terminated⟩ ∧
    ObsStep ⟨7, .subscribed⟩
      [(7, ObsAction.unsubscribe), (7, ObsAction.wgDone)] ⟨7, .terminated⟩ ∧
    ([] : List (Nat × ObsAction)) = [] ∧
    (sigSend bridgeStart).isSome = true :=
  ⟨terminate_always_completes.1 0 30,
   terminate_always_completes.2.1 7,
   (terminate_always_completes.2.2.1 5 [] ⟨5, .terminated⟩ (ObsReach.refl _)).1,
   terminate_always_completes.2.2.2 bridgeStart rfl⟩

/-- Claim C5: on each of the loop's exit transitions `wg.Done` is performed
exactly once and `Unsubscribe` exactly once if and only if the loop still
holds a subscription; non-exit transitions perform neither; and along any
run from the start, `wg.Done` has occurred exactly once when the loop has
terminated (and never before), with `Unsubscribe` at most once. -/
theorem observeBlocks_exit_discipline :
    (∀ c acts c2, ObsStep c acts c2 → c2.phase = ObsPhase.terminated →
      countAct ObsAction.wgDone acts = 1 ∧
      countAct ObsAction.unsubscribe acts =
        (if c.phase = ObsPhase.subscribed then 1 else 0)) ∧
    (∀ c acts c2, ObsStep c acts c2 → c2.phase ≠ ObsPhase.terminated →
      countAct ObsAction.wgDone acts = 0 ∧ countAct ObsAction.unsubscribe acts = 0) ∧
    (∀ t0 tr c, ObsReach ⟨t0, .booting⟩ tr c →
      countAct ObsAction.wgDone tr = (if c.phase = ObsPhase.terminated then 1 else 0) ∧
      countAct ObsAction.unsubscribe tr ≤ 1) := by
  refine ⟨?_, ?_, ?_⟩
  · intro c acts c2 h hterm
    obtain ⟨h1, h2⟩ := obsStep_counts h
    rw [hterm] at h1 h2
    simp at h1 h2
    exact ⟨h1, h2⟩
  · intro c acts c2 h hterm
    obtain ⟨h1, h2⟩ := obsStep_counts h
    rw [if_neg hterm] at h1
    rw [if_neg (fun hx => hterm hx.1)] at h2
    exact ⟨h1, h2⟩
  · intro t0 tr c h
    obtain ⟨h1, h2⟩ := obsReach_wgDone h (by simp)
    refine ⟨h1, le_trans h2 ?_⟩
    split_ifs <;> omega

/-- Witness for C5: the subscribed-exit transition performs one
`Unsubscribe` and one `wg.Done`; the empty run from the start has no
`Unsubscribe`. -/
theorem observeBlocks_exit_discipline_witness :
    countAct ObsAction.wgDone [(4, ObsAction.unsubscribe), (4, ObsAction.wgDone)] = 1 ∧
    countAct ObsAction.unsubscribe [(4, ObsAction.unsubscribe), (4, ObsAction.wgDone)] = 1 ∧
    countAct ObsAction.unsubscribe ([] : List (Nat × ObsAction)) ≤ 1 := by
  have h := observeBlocks_exit_discipline.1 ⟨3, .subscribed⟩
    [(4, ObsAction.unsubscribe), (4, ObsAction.wgDone)] ⟨4, .terminated⟩
    (ObsStep.subClose 3 4 (by decide)) rfl
  have h3 := (observeBlocks_exit_discipline.2.2 0 [] ⟨0, .booting⟩ (ObsReach.refl _)).2
  exact ⟨h.1, by simpa using h.2, h3⟩

/-- Claim C6: a subscription error sends the loop to the no-subscription
state with a timer armed a full retry tick (30 s) ahead, performing no
immediate subscribe; subscribe attempts happen only at a timer deadline
(or at startup); and in every reachable run any two subscribe attempts are
at least one full retry tick apart — at most one attempt per elapsed
interval. -/
theorem observerLoop_retry_spacing :
    (∀ t t2, t ≤ t2 → ObsStep ⟨t, .subscribed⟩ [(t2, ObsAction.errorLogged)]
        ⟨t2, .waiting (t2 + chainHeadsObserverSubscribeTick)⟩) ∧
    (∀ c acts c2, ObsStep c acts c2 → ∀ u, (u, ObsAction.subscribeAttempt) ∈ acts →
      (∃ d, c.phase = ObsPhase.waiting d ∧ u = d) ∨
        (c.phase = ObsPhase.booting ∧ u = c.now)) ∧
    (∀ c0 tr c, ObsReach c0 tr c →
      List.Pairwise (fun a b => a + chainHeadsObserverSubscribeTick ≤ b) (attempts tr)) := by
  refine ⟨?_, ?_, ?_⟩
  · intro t t2 h
    exact ObsStep.subErr t t2 h
  · intro c acts c2 h u hm
    cases h <;> simp_all
  · intro c0 tr c h
    exact (obsReach_attempts_spaced h).2

/-- Witness for C6: the error transition at concrete times, and the
attempt spacing on a concrete two-attempt run (boot failure at 0, timer
retry at 30). -/
theorem observerLoop_retry_spacing_witness :
    ObsStep ⟨3, .subscribed⟩ [(5, ObsAction.errorLogged)]
      ⟨5, .waiting (5 + chainHeadsObserverSubscribeTick)⟩ ∧
    List.Pairwise (fun a b => a + chainHeadsObserverSubscribeTick ≤ b)
      (attempts [(0, ObsAction.subscribeAttempt), (30, ObsAction.subscribeAttempt)]) := by
  constructor
  · exact observerLoop_retry_spacing.1 3 5 (by decide)
  · have h1 : ObsReach ⟨0, .booting⟩ ([] ++ [(0, ObsAction.subscribeAttempt)])
        ⟨0, .waiting (0 + chainHeadsObserverSubscribeTick)⟩ :=
      ObsReach.step (ObsReach.refl _) (ObsStep.bootFail 0)
    have h2 := ObsReach.step h1
      (ObsStep.waitTimerOk 0 (0 + chainHeadsObserverSubscribeTick) (Nat.zero_le _))
    have h3 := observerLoop_retry_spacing.2.2 _ _ _ h2
    simpa [chainHeadsObserverSubscribeTick] using h3

end Galaxy
